import Mathlib

/-!
Shallow embedding of the evidence matching and deviation classification
engine of the video-analysis repository, together with theorems settling
the specification claims about it.

The embedded functions mirror `src/tools/step_matcher.py` and
`src/tools/action_detector.py`.  Python strings are modelled as Lean
`String` restricted to ASCII content (the vocabularies and
regular expressions are ASCII); Python floats are modelled as exact
rationals `ℚ`; Python dictionaries with optional keys are modelled as
structures with `Option` fields, and `dict.get(key, default)` as
`Option.getD`.
-/

namespace VideoAnalysis

/-! Primitive Python string operations. -/

/-- Membership test of `c` in the Python regex whitespace class (ASCII). -/
def isPySpace (c : Char) : Bool :=
  c == ' ' || c == '\t' || c == '\n' || c == '\r' || c == '\x0b' || c == '\x0c'

/-- Test for an ASCII upper-case letter (regex class `[A-Z]`). -/
def isUpperAlpha (c : Char) : Bool := 'A' ≤ c && c ≤ 'Z'

/-- Test for an ASCII lower-case letter (regex class `[a-z]`). -/
def isLowerAlpha (c : Char) : Bool := 'a' ≤ c && c ≤ 'z'

/-- Membership test of `c` in the regex word class `\w` (ASCII part). -/
def isWordChar (c : Char) : Bool :=
  isUpperAlpha c || isLowerAlpha c || ('0' ≤ c && c ≤ '9') || c == '_'

/-- Test whether `needle` occurs as a contiguous sublist of `hay`:
the Python substring operator `needle in hay`. -/
def containsSub (needle : List Char) : List Char → Bool
  | [] => needle.isEmpty
  | c :: rest => needle.isPrefixOf (c :: rest) || containsSub needle rest

/-- The Python membership test `sub in s` on strings. -/
def pyIn (sub s : String) : Bool := containsSub sub.data s.data

/-- The Python method `str.lower()` on ASCII strings. -/
def pyLower (s : String) : String := String.mk (s.data.map Char.toLower)

/-- Accumulator step for whitespace tokenization (the Python method
`str.split()` with no argument: split on whitespace runs, no empty tokens). -/
def wsTokensAux : List Char → List Char → List String
  | [], acc => if acc.isEmpty then [] else [String.mk acc.reverse]
  | c :: rest, acc =>
    if isPySpace c then
      if acc.isEmpty then wsTokensAux rest []
      else String.mk acc.reverse :: wsTokensAux rest []
    else wsTokensAux rest (c :: acc)

/-- The Python call `str.split()`: whitespace tokenization dropping empty tokens. -/
def wsTokens (s : String) : List String := wsTokensAux s.data []

/-- Scanner for the Python call `re.findall` with the quoted-text
pattern (a double quote, then the captured run of non-quote
characters, then a closing double quote): the state is `none`
outside a quoted region and `some acc` (reversed content so far) inside
one; an unclosed trailing quote produces no match. -/
def findQuotedAux : List Char → Option (List Char) → List String
  | [], _ => []
  | c :: rest, none =>
    if c == '"' then findQuotedAux rest (some []) else findQuotedAux rest none
  | c :: rest, some acc =>
    if c == '"' then String.mk acc.reverse :: findQuotedAux rest none
    else findQuotedAux rest (some (c :: acc))

/-- The Python call `re.findall` with the quoted-text pattern: the
contents of the non-overlapping quoted regions, scanned left to
right. -/
def findQuoted (text : String) : List String := findQuotedAux text.data none

/-- Matcher for one word of the capitalized-phrase regex, `[A-Z][a-z]+`
with the `[a-z]+` run taken maximally (greedy, and any shorter run is
rejected by the following `\b` anyway).  Returns the word and the rest. -/
def matchWord : List Char → Option (List Char × List Char)
  | [] => none
  | c :: rest =>
    if isUpperAlpha c then
      let low := rest.takeWhile isLowerAlpha
      if low.isEmpty then none
      else some (c :: low, rest.dropWhile isLowerAlpha)
    else none

/-- Greedy expansion of `(?:\s+[A-Z][a-z]+)*`: the list of
(whitespace run, word) segments consumed, and the rest after the last
word.  The fuel argument only bounds recursion depth; each iteration
consumes at least two characters, so `r.length` fuel is enough. -/
def capChain : Nat → List Char → List (List Char × List Char) × List Char
  | 0, r => ([], r)
  | fuel + 1, r =>
    let sp := r.takeWhile isPySpace
    let r1 := r.dropWhile isPySpace
    if sp.isEmpty then ([], r)
    else
      match matchWord r1 with
      | none => ([], r)
      | some (w, r2) =>
        let (segs, rest) := capChain fuel r2
        ((sp, w) :: segs, rest)

/-- Trailing `\b` test: the position after the match must not be
followed by a word character. -/
def boundaryAfter : List Char → Bool
  | [] => true
  | c :: _ => !isWordChar c

/-- Attempted match of `\b[A-Z][a-z]+(?:\s+[A-Z][a-z]+)*\b` at the
current position.  `prevIsWord` says whether the character before the
position is a word character (the leading `\b`).  On failure of the
trailing `\b` after the greedy chain, the regex engine backtracks by
dropping the last `(?:\s+[A-Z][a-z]+)` repetition, after which the
boundary sits before whitespace and succeeds; with no repetition to
drop the match fails. -/
def capTryMatch (prevIsWord : Bool) (r : List Char) :
    Option (List Char × List Char) :=
  if prevIsWord then none
  else
    match matchWord r with
    | none => none
    | some (w1, r1) =>
      let (segs, rest) := capChain r1.length r1
      if boundaryAfter rest then
        some (w1 ++ (segs.map fun sw => sw.1 ++ sw.2).flatten, rest)
      else
        match segs.getLast? with
        | none => none
        | some lastSeg =>
          some (w1 ++ (segs.dropLast.map fun sw => sw.1 ++ sw.2).flatten,
                lastSeg.1 ++ lastSeg.2 ++ rest)

/-- Left-to-right scan of `re.findall`: try a match at every position;
on success continue after the match (matches are non-overlapping, and
every match ends in a lower-case letter, so `prevIsWord` is true at
the next position), otherwise advance one character. -/
def capScanAux : Nat → Bool → List Char → List (List Char)
  | 0, _, _ => []
  | fuel + 1, prevIsWord, r =>
    match r with
    | [] => []
    | c :: rest =>
      match capTryMatch prevIsWord (c :: rest) with
      | some (m, restAfter) => m :: capScanAux fuel true restAfter
      | none => capScanAux fuel (isWordChar c) rest

/-- The Python call `re.findall` with the capitalized-phrase pattern. -/
def findCapitalized (text : String) : List String :=
  (capScanAux text.data.length false text.data).map String.mk

/-! Similarity scorer (`src/tools/step_matcher.py`). -/

/-- Fixed action-verb vocabulary of `semantic_match`
(`step_matcher.py` line 22; note there is no `"close"` entry). -/
def action_words : List String :=
  ["click", "enter", "type", "select", "navigate", "filter", "search",
   "submit", "open"]

/-- Fixed UI-noun vocabulary of `extract_objects`
(`step_matcher.py` line 46). -/
def ui_elements_words : List String :=
  ["search", "icon", "button", "input", "field", "filter", "menu", "link",
   "bar"]

/-- Embedding of `extract_objects` (`step_matcher.py` lines 40-59):
UI nouns occurring as substrings of the lower-cased text, then quoted
substrings lower-cased, then capitalized phrases lower-cased. -/
def extract_objects (text : String) : List String :=
  let text_lower := pyLower text
  (ui_elements_words.filter fun element => pyIn element text_lower)
    ++ (findQuoted text).map pyLower
    ++ (findCapitalized text).map pyLower

/-- Set overlap used by `semantic_match`:
`len(A & B) / max(len(A | B), 1)` with the Python true division. -/
def overlapQ (A B : Finset String) : ℚ :=
  ((A ∩ B).card : ℚ) / ((max (A ∪ B).card 1 : ℕ) : ℚ)

/-- Action words occurring as substrings of the lower-cased text
(`step_matcher.py` lines 23-24, `word in planned_lower`), as a set. -/
def actionSet (s : String) : Finset String :=
  (action_words.filter fun word => pyIn word (pyLower s)).toFinset

/-- Set of objects extracted from a text (`set(...)` applied to
`extract_objects`). -/
def objectSet (s : String) : Finset String := (extract_objects s).toFinset

/-- Embedding of `semantic_match` (`step_matcher.py` lines 7-37). -/
def semantic_match (planned_action observed_action : String) : ℚ :=
  let action_match := overlapQ (actionSet planned_action) (actionSet observed_action)
  let object_match := overlapQ (objectSet planned_action) (objectSet observed_action)
  action_match * 0.6 + object_match * 0.4

/-! Step matcher (`src/tools/step_matcher.py`). -/

/-- Planned-step record; both keys are optional in the dictionaries
of the source. -/
structure PlannedStep where
  next_step_summary : Option String
  next_step : Option String
deriving DecidableEq

/-- One entry of the observation timeline, as produced by
`build_action_timeline` in `src/tools/action_detector.py` (all keys
present). -/
structure TimelineItem where
  timestamp : ℚ
  timestamp_formatted : String
  actions : List String
  ui_elements : List String
  text_content : List String
  description : String
  frame_number : Nat
deriving DecidableEq

/-- Candidate record built by `match_step_with_timeline` for the best
match and for the `matches` list (`step_matcher.py` lines 89-95). -/
structure BestMatch where
  timeline_item : TimelineItem
  observed_action : String
  score : ℚ
  timestamp : ℚ
  timestamp_formatted : String
deriving DecidableEq

/-- Candidate dictionary built at a scan hit. -/
def mkCand (item : TimelineItem) (phrase : String) (score : ℚ) : BestMatch :=
  { timeline_item := item, observed_action := phrase, score := score,
    timestamp := item.timestamp,
    timestamp_formatted := item.timestamp_formatted }

/-- Result dictionary of `match_step_with_timeline`
(`step_matcher.py` lines 122-130). -/
structure MatchResult where
  planned_step : PlannedStep
  planned_action : String
  best_match : Option BestMatch
  best_score : ℚ
  all_matches : List BestMatch
  is_matched : Bool
  result : String
deriving DecidableEq

/-- Comparison text of a planned step (`step_matcher.py` line 78):
`planned_step.get("next_step_summary", "") or planned_step.get("next_step", "")`,
where the Python operator `or` falls through on the empty string. -/
def planned_action_of (planned_step : PlannedStep) : String :=
  let summary := planned_step.next_step_summary.getD ""
  if summary == "" then planned_step.next_step.getD "" else summary

/-- Mutable loop state of `match_step_with_timeline`. -/
structure ScanState where
  best_match : Option BestMatch
  best_score : ℚ
  match_list : List BestMatch
deriving DecidableEq

/-- Processing of one scanned phrase: the best candidate is replaced
only on a strict score improvement (`if score > best_score`), and, only
when the phrase comes from the `actions` list (`collect = true`), an
above-threshold phrase is appended to `matches`
(`step_matcher.py` lines 85-104 and 110-120; the second loop has no
`matches` collection). -/
def stepPhrase (planned_action : String) (threshold : ℚ) (collect : Bool)
    (item : TimelineItem) (st : ScanState) (phrase : String) : ScanState :=
  let score := semantic_match planned_action phrase
  let st1 :=
    if st.best_score < score then
      { st with best_score := score,
                best_match := some (mkCand item phrase score) }
    else st
  if collect ∧ threshold ≤ score then
    { st1 with match_list := st1.match_list ++ [mkCand item phrase score] }
  else st1

/-- Scan of one timeline item: first the `actions` list, then
`ui_elements + text_content` (`step_matcher.py` lines 83-120). -/
def scanItem (planned_action : String) (threshold : ℚ) (st : ScanState)
    (item : TimelineItem) : ScanState :=
  let st1 := item.actions.foldl
    (stepPhrase planned_action threshold true item) st
  (item.ui_elements ++ item.text_content).foldl
    (stepPhrase planned_action threshold false item) st1

/-- Embedding of `match_step_with_timeline`
(`step_matcher.py` lines 62-130); the default threshold of the source
is `0.5`. -/
def match_step_with_timeline (planned_step : PlannedStep)
    (timeline : List TimelineItem) (threshold : ℚ) : MatchResult :=
  let planned_action := planned_action_of planned_step
  let final := timeline.foldl (scanItem planned_action threshold)
    { best_match := none, best_score := 0, match_list := [] }
  { planned_step := planned_step
    planned_action := planned_action
    best_match := final.best_match
    best_score := final.best_score
    all_matches := final.match_list
    is_matched := decide (threshold ≤ final.best_score)
    result := if threshold ≤ final.best_score then "observed" else "deviation" }

/-- Embedding of `match_all_steps` (`step_matcher.py` lines 133-155). -/
def match_all_steps (planned_steps : List PlannedStep)
    (timeline : List TimelineItem) (threshold : ℚ) : List MatchResult :=
  planned_steps.map fun step =>
    match_step_with_timeline step timeline threshold

/-- Embedding of `categorize_deviation`
(`step_matcher.py` lines 158-178). -/
def categorize_deviation (match_result : MatchResult) : String :=
  if match_result.is_matched then "observed"
  else if match_result.best_score = 0 then "skipped"
  else if match_result.best_score < 0.3 then "not_visible"
  else "altered"

/-! Timeline builder (`src/tools/action_detector.py`). -/

/-- Analyzed frame record with every key optional, modelling the
duck-typed dictionaries of the source; `analysis_description` models
`frame_data.get("analysis", {}).get("description", "")`. -/
structure FrameRecord where
  timestamp : Option ℚ
  timestamp_formatted : Option String
  detected_actions : Option (List String)
  ui_elements : Option (List String)
  text_content : Option (List String)
  analysis_description : Option String
  frame_number : Option Nat
deriving DecidableEq

/-- Timeline entry built from one frame record, with the `dict.get`
defaults of the source (`action_detector.py` lines 220-239). -/
def frameEntry (frame_data : FrameRecord) : TimelineItem :=
  { timestamp := frame_data.timestamp.getD 0
    timestamp_formatted := frame_data.timestamp_formatted.getD "00:00"
    actions := frame_data.detected_actions.getD []
    ui_elements := frame_data.ui_elements.getD []
    text_content := frame_data.text_content.getD []
    description := frame_data.analysis_description.getD ""
    frame_number := frame_data.frame_number.getD 0 }

/-- Embedding of `build_action_timeline`
(`action_detector.py` lines 206-241): frames whose three phrase lists
are all empty are dropped (`if actions or ui_elements or text_content`),
the others are appended in order. -/
def build_action_timeline (analyzed_frames : List FrameRecord) :
    List TimelineItem :=
  analyzed_frames.foldl
    (fun timeline frame_data =>
      let actions := frame_data.detected_actions.getD []
      let ui_elements := frame_data.ui_elements.getD []
      let text_content := frame_data.text_content.getD []
      if !actions.isEmpty || !ui_elements.isEmpty || !text_content.isEmpty
      then timeline ++ [frameEntry frame_data]
      else timeline)
    []

/-! Scan-order reformulation of the step matcher: the two nested
phrase loops of `match_step_with_timeline`, flattened into one pass
over flagged (item, phrase) pairs in scan order.  The flag records
whether the phrase comes from the `actions` list. -/

/-- Scanned (item, phrase, flag) triples of a timeline in scan order:
within one item first the action phrases (flag `true`), then the UI
elements and text content (flag `false`). -/
def flaggedPairs (timeline : List TimelineItem) :
    List (TimelineItem × String × Bool) :=
  timeline.flatMap fun item =>
    (item.actions.map fun a => (item, a, true)) ++
      ((item.ui_elements ++ item.text_content).map fun e => (item, e, false))

/-- `stepPhrase` reformulated over one flagged pair. -/
def stepFlag (planned_action : String) (threshold : ℚ) (st : ScanState)
    (p : TimelineItem × String × Bool) : ScanState :=
  stepPhrase planned_action threshold p.2.2 p.1 st p.2.1

/-- Evolution of the (best score, best candidate) components alone. -/
def bestStep (pa : String) (b : ℚ × Option BestMatch)
    (p : TimelineItem × String × Bool) : ℚ × Option BestMatch :=
  let score := semantic_match pa p.2.1
  if b.1 < score then (score, some (mkCand p.1 p.2.1 score)) else b

/-! Definitions taken from the words of the claims (spec side), for the
refinement claims C1 and C4. -/

/-- Action-token set as claim C1 states it: the lower-cased,
whitespace-tokenized tokens of the text that are members of the fixed
action-verb vocabulary (whole-token membership). -/
def specActionTokens (text : String) : Finset String :=
  ((wsTokens (pyLower text)).filter fun tok => action_words.contains tok).toFinset

/-- Overlap as claim C1 defines it: `|A∩B| / max(|A∪B|, 1)`. -/
def specOverlap (A B : Finset String) : ℚ :=
  ((A ∩ B).card : ℚ) / ((max (A ∪ B).card 1 : ℕ) : ℚ)

/-- Similarity score exactly as claim C1 states it:
`0.6·overlap(actionTokens) + 0.4·overlap(objectTokens)` with
whole-token action-token membership (object tokens per the extractor
of the source, which the claim does not further constrain). -/
def specScoreC1 (planned observed : String) : ℚ :=
  0.6 * specOverlap (specActionTokens planned) (specActionTokens observed) +
    0.4 * specOverlap (objectSet planned) (objectSet observed)

/-- Amended action-token set forced by the counterexample to C1: the
vocabulary words occurring as substrings of the lower-cased text (the
source tests `word in planned_lower`). -/
def amendedActionTokens (text : String) : Finset String :=
  (action_words.filter fun word => pyIn word (pyLower text)).toFinset

/-- Score formula of claim C1 with the amended action-token set. -/
def amendedScoreC1 (planned observed : String) : ℚ :=
  0.6 * specOverlap (amendedActionTokens planned) (amendedActionTokens observed) +
    0.4 * specOverlap (objectSet planned) (objectSet observed)

/-- The `aboveThreshold` list as claim C4 states it: every
(event, phrase, score) triple with score ≥ threshold drawn from all
three phrase sets of every event, in timeline order. -/
def specAboveThreshold (step : PlannedStep) (timeline : List TimelineItem)
    (threshold : ℚ) : List BestMatch :=
  (flaggedPairs timeline).filterMap fun p =>
    if threshold ≤ semantic_match (planned_action_of step) p.2.1 then
      some (mkCand p.1 p.2.1 (semantic_match (planned_action_of step) p.2.1))
    else none

/-! Concrete fixtures used by counterexamples and witnesses. -/

/-- Planned step whose comparison text is `"x"`. -/
def stepX : PlannedStep := PlannedStep.mk (some "x") none

/-- Timeline item with two action phrases that both score 0 against
`"x"`. -/
def itemAB : TimelineItem := TimelineItem.mk 0 "00:00" ["a", "b"] [] [] "" 0

/-- Planned step whose comparison text is `"click"`. -/
def stepClick : PlannedStep := PlannedStep.mk (some "click") none

/-- Timeline item at 5 seconds with action phrase `"click"`. -/
def itemEarly : TimelineItem := TimelineItem.mk 5 "00:05" ["click"] [] [] "" 0

/-- Timeline item at 12 seconds with the same action phrase. -/
def itemLate : TimelineItem := TimelineItem.mk 12 "00:12" ["click"] [] [] "" 1

/-- Timeline item whose only evidence phrase is a UI element. -/
def itemUIOnly : TimelineItem := TimelineItem.mk 3 "00:03" [] ["click"] [] "" 0

/-- Timeline item with one action phrase `"click"`. -/
def itemAction : TimelineItem := TimelineItem.mk 3 "00:03" ["click"] [] [] "" 0

/-- Analyzed frame record lacking a timestamp but carrying one detected
action. -/
def frameNoTimestamp : FrameRecord :=
  FrameRecord.mk none none (some ["click"]) none none none none

/-! Basic facts about the similarity scorer. -/

/-- Computation rule for `overlapQ` from the two cardinalities. -/
theorem overlapQ_eval (A B : Finset String) (i u : ℕ) (v : ℚ)
    (hi : (A ∩ B).card = i) (hu : (A ∪ B).card = u)
    (hv : (i : ℚ) / ((max u 1 : ℕ) : ℚ) = v) : overlapQ A B = v := by
  unfold overlapQ
  rw [hi, hu, hv]

theorem overlapQ_nonneg (A B : Finset String) : 0 ≤ overlapQ A B :=
  div_nonneg (Nat.cast_nonneg _) (Nat.cast_nonneg _)

theorem overlapQ_le_one (A B : Finset String) : overlapQ A B ≤ 1 := by
  unfold overlapQ
  apply div_le_one_of_le₀
  · exact_mod_cast le_trans
      (Finset.card_le_card Finset.inter_subset_union) (le_max_left _ _)
  · exact Nat.cast_nonneg _

theorem overlapQ_comm (A B : Finset String) : overlapQ A B = overlapQ B A := by
  unfold overlapQ
  rw [Finset.inter_comm, Finset.union_comm]

/-- C6: the similarity scorer is a total function: for every pair of
strings, including empty strings, it returns without error a score in
the interval [0,1].  (In the embedding `semantic_match` is a total Lean
function, so totality is by construction; the theorem states the
range.) -/
theorem C6_theorem (x y : String) :
    0 ≤ semantic_match x y ∧ semantic_match x y ≤ 1 := by
  have h1 := overlapQ_nonneg (actionSet x) (actionSet y)
  have h2 := overlapQ_le_one (actionSet x) (actionSet y)
  have h3 := overlapQ_nonneg (objectSet x) (objectSet y)
  have h4 := overlapQ_le_one (objectSet x) (objectSet y)
  unfold semantic_match
  constructor <;> nlinarith

/-- C9: the similarity scorer is symmetric: for every pair of strings
`x` and `y`, `score(x, y) = score(y, x)`. -/
theorem C9_theorem (x y : String) :
    semantic_match x y = semantic_match y x := by
  unfold semantic_match
  rw [overlapQ_comm (actionSet x) (actionSet y),
    overlapQ_comm (objectSet x) (objectSet y)]

theorem scan_eq_flat (pa : String) (θ : ℚ) (timeline : List TimelineItem)
    (st : ScanState) :
    timeline.foldl (scanItem pa θ) st =
      (flaggedPairs timeline).foldl (stepFlag pa θ) st := by
  induction timeline generalizing st with
  | nil => rfl
  | cons item rest ih =>
    simp only [flaggedPairs, List.flatMap_cons, List.foldl_cons,
      List.foldl_append, List.foldl_map]
    rw [ih]
    simp only [flaggedPairs]
    congr 1
    simp only [scanItem, List.foldl_append]
    rfl

theorem stepFlag_best (pa : String) (θ : ℚ) (st : ScanState)
    (p : TimelineItem × String × Bool) :
    ((stepFlag pa θ st p).best_score, (stepFlag pa θ st p).best_match) =
      bestStep pa (st.best_score, st.best_match) p := by
  unfold stepFlag stepPhrase bestStep
  by_cases h1 : st.best_score < semantic_match pa p.2.1 <;>
    by_cases h2 : p.2.2 = true ∧ θ ≤ semantic_match pa p.2.1 <;>
      simp [h1, h2]

theorem foldl_stepFlag_best (pa : String) (θ : ℚ)
    (l : List (TimelineItem × String × Bool)) (st : ScanState) :
    ((l.foldl (stepFlag pa θ) st).best_score,
        (l.foldl (stepFlag pa θ) st).best_match) =
      l.foldl (bestStep pa) (st.best_score, st.best_match) := by
  induction l generalizing st with
  | nil => rfl
  | cons p l ih =>
    rw [List.foldl_cons, List.foldl_cons, ih, stepFlag_best]

theorem stepFlag_matches (pa : String) (θ : ℚ) (st : ScanState)
    (p : TimelineItem × String × Bool) :
    (stepFlag pa θ st p).match_list =
      st.match_list ++
        (if p.2.2 = true ∧ θ ≤ semantic_match pa p.2.1 then
          [mkCand p.1 p.2.1 (semantic_match pa p.2.1)] else []) := by
  unfold stepFlag stepPhrase
  by_cases h1 : st.best_score < semantic_match pa p.2.1 <;>
    by_cases h2 : p.2.2 = true ∧ θ ≤ semantic_match pa p.2.1 <;>
      simp [h1, h2]

theorem foldl_stepFlag_matches (pa : String) (θ : ℚ)
    (l : List (TimelineItem × String × Bool)) (st : ScanState) :
    (l.foldl (stepFlag pa θ) st).match_list =
      st.match_list ++ l.filterMap (fun p =>
        if p.2.2 = true ∧ θ ≤ semantic_match pa p.2.1 then
          some (mkCand p.1 p.2.1 (semantic_match pa p.2.1)) else none) := by
  induction l generalizing st with
  | nil => simp
  | cons p l ih =>
    rw [List.foldl_cons, ih, stepFlag_matches, List.filterMap_cons]
    by_cases h : p.2.2 = true ∧ θ ≤ semantic_match pa p.2.1 <;>
      simp [h]

/-! Facts about the best-candidate tracking fold. -/

theorem bestStep_fst_le (pa : String) (b : ℚ × Option BestMatch)
    (p : TimelineItem × String × Bool) : b.1 ≤ (bestStep pa b p).1 := by
  simp only [bestStep]
  split
  · exact le_of_lt (by assumption)
  · exact le_refl _

theorem le_bestStep_fst (pa : String) (b : ℚ × Option BestMatch)
    (p : TimelineItem × String × Bool) :
    semantic_match pa p.2.1 ≤ (bestStep pa b p).1 := by
  simp only [bestStep]
  split
  · exact le_refl _
  · exact not_lt.mp (by assumption)

theorem bestStep_eq_of_fst_eq (pa : String) (b : ℚ × Option BestMatch)
    (p : TimelineItem × String × Bool) (h : (bestStep pa b p).1 = b.1) :
    bestStep pa b p = b := by
  by_cases hlt : b.1 < semantic_match pa p.2.1
  · rw [bestStep] at h
    simp only [if_pos hlt] at h
    exact absurd h.symm (ne_of_lt hlt)
  · rw [bestStep]
    simp only [if_neg hlt]

theorem foldl_bestStep_le (pa : String)
    (l : List (TimelineItem × String × Bool)) (b : ℚ × Option BestMatch) :
    b.1 ≤ (l.foldl (bestStep pa) b).1 := by
  induction l generalizing b with
  | nil => exact le_refl _
  | cons p l ih =>
    exact le_trans (bestStep_fst_le pa b p) (ih (bestStep pa b p))

theorem foldl_bestStep_stable (pa : String)
    (l : List (TimelineItem × String × Bool)) (b : ℚ × Option BestMatch)
    (h : (l.foldl (bestStep pa) b).1 = b.1) :
    (l.foldl (bestStep pa) b).2 = b.2 := by
  induction l generalizing b with
  | nil => rfl
  | cons p l ih =>
    rw [List.foldl_cons] at h ⊢
    have hb : (bestStep pa b p).1 = b.1 :=
      le_antisymm (h ▸ foldl_bestStep_le pa l (bestStep pa b p))
        (bestStep_fst_le pa b p)
    have hbb : bestStep pa b p = b := bestStep_eq_of_fst_eq pa b p hb
    rw [hbb] at h ⊢
    exact ih b h

theorem foldl_bestStep_ub (pa : String)
    (l : List (TimelineItem × String × Bool)) (b : ℚ × Option BestMatch) :
    ∀ q ∈ l, semantic_match pa q.2.1 ≤ (l.foldl (bestStep pa) b).1 := by
  induction l generalizing b with
  | nil => intro q hq; simp at hq
  | cons p l ih =>
    intro q hq
    rw [List.foldl_cons]
    rcases List.mem_cons.mp hq with rfl | hq
    · exact le_trans (le_bestStep_fst pa b q)
        (foldl_bestStep_le pa l (bestStep pa b q))
    · exact ih (bestStep pa b p) q hq

/-- First-encountered-wins: if the fold strictly improved on its
starting score, the recorded candidate is built from the first scanned
pair whose score equals the final best score. -/
theorem foldl_bestStep_first (pa : String)
    (l : List (TimelineItem × String × Bool)) (b : ℚ × Option BestMatch)
    (h : b.1 < (l.foldl (bestStep pa) b).1) :
    ∃ p, l.find? (fun q =>
        decide (semantic_match pa q.2.1 = (l.foldl (bestStep pa) b).1)) =
          some p ∧
      (l.foldl (bestStep pa) b).2 =
        some (mkCand p.1 p.2.1 (semantic_match pa p.2.1)) := by
  induction l generalizing b with
  | nil => exact absurd h (lt_irrefl _)
  | cons p l ih =>
    rw [List.foldl_cons] at h ⊢
    by_cases hlt : (bestStep pa b p).1 < (l.foldl (bestStep pa) (bestStep pa b p)).1
    · obtain ⟨p', hfind, hsnd⟩ := ih (bestStep pa b p) hlt
      refine ⟨p', ?_, hsnd⟩
      rw [List.find?_cons_of_neg, hfind]
      have hle : semantic_match pa p.2.1 ≤ (bestStep pa b p).1 :=
        le_bestStep_fst pa b p
      simp only [decide_eq_true_eq]
      exact ne_of_lt (lt_of_le_of_lt hle hlt)
    · have heq : (l.foldl (bestStep pa) (bestStep pa b p)).1 =
          (bestStep pa b p).1 :=
        le_antisymm (not_lt.mp hlt) (foldl_bestStep_le pa l (bestStep pa b p))
      have hfire : b.1 < semantic_match pa p.2.1 := by
        by_contra hc
        have hid : bestStep pa b p = b := by
          rw [bestStep]
          simp only [if_neg hc]
        rw [hid] at heq h
        exact absurd heq (ne_of_gt h)
      have hval : bestStep pa b p =
          (semantic_match pa p.2.1, some (mkCand p.1 p.2.1 (semantic_match pa p.2.1))) := by
        rw [bestStep]
        simp only [if_pos hfire]
      refine ⟨p, ?_, ?_⟩
      · rw [List.find?_cons_of_pos]
        simp only [decide_eq_true_eq]
        rw [heq, hval]
      · rw [foldl_bestStep_stable pa l (bestStep pa b p) heq, hval]

/-- Invariant for C10: a strictly positive best score and a recorded
best candidate appear together. -/
theorem foldl_bestStep_isSome (pa : String)
    (l : List (TimelineItem × String × Bool)) (b : ℚ × Option BestMatch)
    (hb : 0 ≤ b.1) (hiff : 0 < b.1 ↔ b.2.isSome = true) :
    0 ≤ (l.foldl (bestStep pa) b).1 ∧
      (0 < (l.foldl (bestStep pa) b).1 ↔
        (l.foldl (bestStep pa) b).2.isSome = true) := by
  induction l generalizing b with
  | nil => exact ⟨hb, hiff⟩
  | cons p l ih =>
    rw [List.foldl_cons]
    by_cases hlt : b.1 < semantic_match pa p.2.1
    · have hval : bestStep pa b p =
          (semantic_match pa p.2.1, some (mkCand p.1 p.2.1 (semantic_match pa p.2.1))) := by
        rw [bestStep]
        simp only [if_pos hlt]
      apply ih
      · rw [hval]
        exact le_of_lt (lt_of_le_of_lt hb hlt)
      · rw [hval]
        simp only [Option.isSome_some, iff_true]
        exact lt_of_le_of_lt hb hlt
    · have hval : bestStep pa b p = b := by
        rw [bestStep]
        simp only [if_neg hlt]
      rw [hval]
      exact ih b hb hiff

/-! Projections of `match_step_with_timeline` through the flat scan. -/

theorem match_step_best (step : PlannedStep) (timeline : List TimelineItem)
    (θ : ℚ) :
    ((match_step_with_timeline step timeline θ).best_score,
        (match_step_with_timeline step timeline θ).best_match) =
      (flaggedPairs timeline).foldl (bestStep (planned_action_of step))
        (0, none) := by
  unfold match_step_with_timeline
  dsimp only
  rw [scan_eq_flat]
  exact foldl_stepFlag_best (planned_action_of step) θ (flaggedPairs timeline)
    ⟨none, 0, []⟩

theorem match_step_fields (step : PlannedStep) (timeline : List TimelineItem)
    (θ : ℚ) :
    (match_step_with_timeline step timeline θ).is_matched =
        decide (θ ≤ (match_step_with_timeline step timeline θ).best_score) ∧
      (match_step_with_timeline step timeline θ).result =
        (if θ ≤ (match_step_with_timeline step timeline θ).best_score then
          "observed" else "deviation") := by
  unfold match_step_with_timeline
  exact ⟨rfl, rfl⟩

theorem match_step_matches (step : PlannedStep) (timeline : List TimelineItem)
    (θ : ℚ) :
    (match_step_with_timeline step timeline θ).all_matches =
      (flaggedPairs timeline).filterMap (fun p =>
        if p.2.2 = true ∧ θ ≤ semantic_match (planned_action_of step) p.2.1
        then some (mkCand p.1 p.2.1
          (semantic_match (planned_action_of step) p.2.1))
        else none) := by
  unfold match_step_with_timeline
  dsimp only
  rw [scan_eq_flat, foldl_stepFlag_matches]
  simp

theorem match_step_score_nonneg (step : PlannedStep)
    (timeline : List TimelineItem) (θ : ℚ) :
    0 ≤ (match_step_with_timeline step timeline θ).best_score := by
  have hfst := congrArg Prod.fst (match_step_best step timeline θ)
  dsimp at hfst
  rw [hfst]
  exact foldl_bestStep_le (planned_action_of step) (flaggedPairs timeline)
    (0, none)

/-- C10: the result of the step matcher contains a best candidate
(`best_match` is non-null) if and only if `best_score > 0`; in
particular a result with `best_score = 0` never carries a best
candidate. -/
theorem C10_theorem (step : PlannedStep) (timeline : List TimelineItem)
    (θ : ℚ) :
    (match_step_with_timeline step timeline θ).best_match.isSome = true ↔
      0 < (match_step_with_timeline step timeline θ).best_score := by
  have hpr := match_step_best step timeline θ
  have hfst := congrArg Prod.fst hpr
  have hsnd := congrArg Prod.snd hpr
  dsimp at hfst hsnd
  rw [hfst, hsnd]
  exact (foldl_bestStep_isSome (planned_action_of step)
    (flaggedPairs timeline) (0, none) le_rfl (by simp)).2.symm

/-- C2: for a result with verdict Deviation under the default
threshold 0.5 and band boundary 0.3 of the source, the deviation
category is `skipped` iff `best_score = 0`, `not_visible` iff
`0 < best_score < 0.3`, and `altered` iff `0.3 ≤ best_score < 0.5`; in
particular `best_score = 0.3` yields `altered` and `best_score = 0`
yields `skipped`, never `not_visible`. -/
theorem C2_theorem (step : PlannedStep) (timeline : List TimelineItem)
    (h : (match_step_with_timeline step timeline 0.5).result = "deviation") :
    (categorize_deviation (match_step_with_timeline step timeline 0.5) =
        "skipped" ↔
      (match_step_with_timeline step timeline 0.5).best_score = 0) ∧
    (categorize_deviation (match_step_with_timeline step timeline 0.5) =
        "not_visible" ↔
      0 < (match_step_with_timeline step timeline 0.5).best_score ∧
        (match_step_with_timeline step timeline 0.5).best_score < 0.3) ∧
    (categorize_deviation (match_step_with_timeline step timeline 0.5) =
        "altered" ↔
      (0.3 : ℚ) ≤ (match_step_with_timeline step timeline 0.5).best_score ∧
        (match_step_with_timeline step timeline 0.5).best_score < 0.5) := by
  have h0 := match_step_score_nonneg step timeline 0.5
  obtain ⟨hmatched, hresult⟩ := match_step_fields step timeline 0.5
  have hlt : (match_step_with_timeline step timeline 0.5).best_score <
      (0.5 : ℚ) := by
    by_contra hc
    rw [hresult, if_pos (not_lt.mp hc)] at h
    exact absurd h (by decide)
  have him : (match_step_with_timeline step timeline 0.5).is_matched =
      false := by
    rw [hmatched, decide_eq_false_iff_not]
    exact not_le.mpr hlt
  unfold categorize_deviation
  rw [him]
  simp only [Bool.false_eq_true, if_false]
  by_cases h1 : (match_step_with_timeline step timeline 0.5).best_score = 0
  · rw [if_pos h1]
    refine ⟨⟨fun _ => h1, fun _ => rfl⟩, ?_, ?_⟩
    · constructor
      · intro hs
        exact absurd hs (by decide)
      · rintro ⟨hpos, _⟩
        exact absurd h1.symm (ne_of_lt hpos)
    · constructor
      · intro hs
        exact absurd hs (by decide)
      · rintro ⟨hge, _⟩
        rw [h1] at hge
        norm_num at hge
  · rw [if_neg h1]
    have hpos : 0 < (match_step_with_timeline step timeline 0.5).best_score :=
      lt_of_le_of_ne h0 (Ne.symm h1)
    by_cases h2 : (match_step_with_timeline step timeline 0.5).best_score <
        (0.3 : ℚ)
    · rw [if_pos h2]
      refine ⟨?_, ⟨fun _ => ⟨hpos, h2⟩, fun _ => rfl⟩, ?_⟩
      · constructor
        · intro hs
          exact absurd hs (by decide)
        · intro hz
          exact absurd hz h1
      · constructor
        · intro hs
          exact absurd hs (by decide)
        · rintro ⟨hge, _⟩
          exact absurd h2 (not_lt.mpr hge)
    · rw [if_neg h2]
      refine ⟨?_, ?_, fun _ => ⟨not_lt.mp h2, hlt⟩, fun _ => rfl⟩
      · constructor
        · intro hs
          exact absurd hs (by decide)
        · intro hz
          exact absurd hz h1
      · constructor
        · intro hs
          exact absurd hs (by decide)
        · rintro ⟨_, hlt3⟩
          exact absurd hlt3 h2

/-- Witness for C2 at a concrete deviation result: the empty timeline
gives best score 0, classified `skipped`. -/
theorem C2_witness :
    categorize_deviation
      (match_step_with_timeline (PlannedStep.mk none none) [] 0.5) =
      "skipped" := by
  have hresult : (match_step_with_timeline (PlannedStep.mk none none) []
      (0.5 : ℚ)).result = "deviation" := by
    obtain ⟨_, hres⟩ := match_step_fields (PlannedStep.mk none none) [] 0.5
    rw [hres]
    have hz : (match_step_with_timeline (PlannedStep.mk none none) []
        (0.5 : ℚ)).best_score = 0 := rfl
    rw [hz, if_neg (by norm_num)]
  exact (C2_theorem (PlannedStep.mk none none) [] hresult).1.mpr rfl

/-- C5: a non-empty list of planned steps matched against an empty
timeline yields one result per step, each with verdict Deviation, best
score 0, and category `skipped`. -/
theorem C5_theorem (steps : List PlannedStep) (hne : steps ≠ []) :
    (match_all_steps steps [] 0.5).length = steps.length ∧
    ∀ r ∈ match_all_steps steps [] 0.5,
      r.result = "deviation" ∧ r.best_score = 0 ∧
        categorize_deviation r = "skipped" := by
  refine ⟨by simp [match_all_steps], ?_⟩
  intro r hr
  simp only [match_all_steps, List.mem_map] at hr
  obtain ⟨s, _, rfl⟩ := hr
  have hz : (match_step_with_timeline s [] (0.5 : ℚ)).best_score = 0 := rfl
  obtain ⟨hmatched, hresult⟩ := match_step_fields s [] 0.5
  have hres : (match_step_with_timeline s [] (0.5 : ℚ)).result =
      "deviation" := by
    rw [hresult, hz, if_neg (by norm_num)]
  refine ⟨hres, hz, ?_⟩
  unfold categorize_deviation
  rw [hmatched, hz]
  rw [decide_eq_false_iff_not.mpr (by norm_num)]
  simp

/-- Witness for C5 with one concrete planned step. -/
theorem C5_witness :
    (match_all_steps [PlannedStep.mk none none] [] 0.5).length = 1 ∧
    (match_step_with_timeline (PlannedStep.mk none none) [] 0.5).best_score =
      0 := by
  have h := C5_theorem [PlannedStep.mk none none] (by simp)
  refine ⟨h.1, ?_⟩
  exact (h.2 _ (by simp [match_all_steps])).2.1

/-! Evaluation lemmas at the concrete fixtures. -/

theorem sm_eval (p o : String) (a b v : ℚ)
    (ha : overlapQ (actionSet p) (actionSet o) = a)
    (hb : overlapQ (objectSet p) (objectSet o) = b)
    (hv : a * 0.6 + b * 0.4 = v) : semantic_match p o = v := by
  unfold semantic_match
  rw [ha, hb, hv]

theorem sm_click_click : semantic_match "click" "click" = 3/5 :=
  sm_eval _ _ 1 0 _
    (overlapQ_eval _ _ 1 1 1 (by decide) (by decide) (by norm_num))
    (overlapQ_eval _ _ 0 0 0 (by decide) (by decide) (by norm_num))
    (by norm_num)

theorem sm_x_a : semantic_match "x" "a" = 0 :=
  sm_eval _ _ 0 0 _
    (overlapQ_eval _ _ 0 0 0 (by decide) (by decide) (by norm_num))
    (overlapQ_eval _ _ 0 0 0 (by decide) (by decide) (by norm_num))
    (by norm_num)

theorem sm_x_b : semantic_match "x" "b" = 0 :=
  sm_eval _ _ 0 0 _
    (overlapQ_eval _ _ 0 0 0 (by decide) (by decide) (by norm_num))
    (overlapQ_eval _ _ 0 0 0 (by decide) (by decide) (by norm_num))
    (by norm_num)

theorem sm_clicking_click : semantic_match "clicking" "click" = 3/5 :=
  sm_eval _ _ 1 0 _
    (overlapQ_eval _ _ 1 1 1 (by decide) (by decide) (by norm_num))
    (overlapQ_eval _ _ 0 0 0 (by decide) (by decide) (by norm_num))
    (by norm_num)

theorem bestStep_of_lt (pa : String) (b : ℚ × Option BestMatch)
    (p : TimelineItem × String × Bool) (h : b.1 < semantic_match pa p.2.1) :
    bestStep pa b p =
      (semantic_match pa p.2.1,
        some (mkCand p.1 p.2.1 (semantic_match pa p.2.1))) := by
  rw [bestStep]
  simp only [if_pos h]

theorem bestStep_of_le (pa : String) (b : ℚ × Option BestMatch)
    (p : TimelineItem × String × Bool) (h : semantic_match pa p.2.1 ≤ b.1) :
    bestStep pa b p = b := by
  rw [bestStep]
  simp only [if_neg (not_lt.mpr h)]

theorem foldZ_eval :
    (flaggedPairs [itemAB]).foldl (bestStep (planned_action_of stepX))
      (0, none) = (0, none) := by
  rw [show flaggedPairs [itemAB] = [(itemAB, "a", true), (itemAB, "b", true)]
      from rfl,
    show planned_action_of stepX = "x" from rfl,
    List.foldl_cons,
    bestStep_of_le "x" (0, none) (itemAB, "a", true)
      (by show semantic_match "x" "a" ≤ 0; rw [sm_x_a]),
    List.foldl_cons,
    bestStep_of_le "x" (0, none) (itemAB, "b", true)
      (by show semantic_match "x" "b" ≤ 0; rw [sm_x_b]),
    List.foldl_nil]

theorem foldT_eval :
    (flaggedPairs [itemEarly, itemLate]).foldl
      (bestStep (planned_action_of stepClick)) (0, none) =
      (3/5, some (mkCand itemEarly "click" (3/5))) := by
  rw [show flaggedPairs [itemEarly, itemLate] =
      [(itemEarly, "click", true), (itemLate, "click", true)] from rfl,
    show planned_action_of stepClick = "click" from rfl,
    List.foldl_cons,
    bestStep_of_lt "click" (0, none) (itemEarly, "click", true)
      (by show (0 : ℚ) < semantic_match "click" "click"
          rw [sm_click_click]; norm_num),
    sm_click_click,
    List.foldl_cons,
    bestStep_of_le "click" _ (itemLate, "click", true)
      (by show semantic_match "click" "click" ≤ (3/5 : ℚ)
          rw [sm_click_click]),
    List.foldl_nil]

theorem foldV_eval :
    (flaggedPairs [itemAction]).foldl
      (bestStep (planned_action_of stepClick)) (0, none) =
      (3/5, some (mkCand itemAction "click" (3/5))) := by
  rw [show flaggedPairs [itemAction] = [(itemAction, "click", true)] from rfl,
    show planned_action_of stepClick = "click" from rfl,
    List.foldl_cons,
    bestStep_of_lt "click" (0, none) (itemAction, "click", true)
      (by show (0 : ℚ) < semantic_match "click" "click"
          rw [sm_click_click]; norm_num),
    sm_click_click,
    List.foldl_nil]

/-- C1 counterexample: the whole-token action-token reading of the claim
fails on the source, which tests substring containment: on the pair
("clicking", "click") the source scores 3/5 (the vocabulary word
"click" is a substring of "clicking") while the formula of the claim scores
0 (the token "clicking" is not a vocabulary member). -/
theorem C1_counterexample :
    semantic_match "clicking" "click" = 3/5 ∧
      specScoreC1 "clicking" "click" = 0 := by
  refine ⟨sm_clicking_click, ?_⟩
  have he : specOverlap = overlapQ := rfl
  have h1 : specOverlap (specActionTokens "clicking")
      (specActionTokens "click") = 0 := by
    rw [he]
    exact overlapQ_eval _ _ 0 1 0 (by decide) (by decide) (by norm_num)
  have h2 : specOverlap (objectSet "clicking") (objectSet "click") = 0 := by
    rw [he]
    exact overlapQ_eval _ _ 0 0 0 (by decide) (by decide) (by norm_num)
  unfold specScoreC1
  rw [h1, h2]
  norm_num

/-- C1 (amended): for every pair of input strings, the similarity score
equals 0.6 times the overlap of the action-token sets of the two strings plus
0.4 times the overlap of their object-token sets, where the
action tokens of a string are the members of the fixed action-verb vocabulary that
occur as substrings of the lower-cased string (substring containment,
not whole-token membership), and overlap(A,B) = |A∩B| / max(|A∪B|,1). -/
theorem C1_theorem (planned observed : String) :
    semantic_match planned observed = amendedScoreC1 planned observed := by
  have he : specOverlap = overlapQ := rfl
  have ha : amendedActionTokens = actionSet := rfl
  unfold semantic_match amendedScoreC1
  rw [he, ha]
  ring

/-- C3 counterexample: with planned text "x" and one timeline item
carrying the two action phrases "a" and "b", both scanned pairs attain
the maximal (= best) score, yet `best_match` is `none` rather than the
first-encountered pair, because a score of 0 never records a
candidate. -/
theorem C3_counterexample :
    flaggedPairs [itemAB] = [(itemAB, "a", true), (itemAB, "b", true)] ∧
    semantic_match (planned_action_of stepX) "a" =
      (match_step_with_timeline stepX [itemAB] 0.5).best_score ∧
    semantic_match (planned_action_of stepX) "b" =
      (match_step_with_timeline stepX [itemAB] 0.5).best_score ∧
    (match_step_with_timeline stepX [itemAB] 0.5).best_match = none := by
  have hpr := match_step_best stepX [itemAB] 0.5
  rw [foldZ_eval] at hpr
  have hfst := congrArg Prod.fst hpr
  have hsnd := congrArg Prod.snd hpr
  dsimp at hfst hsnd
  refine ⟨rfl, ?_, ?_, hsnd⟩
  · rw [hfst, show planned_action_of stepX = "x" from rfl, sm_x_a]
  · rw [hfst, show planned_action_of stepX = "x" from rfl, sm_x_b]

/-- C3 (amended): the best score bounds every scanned score, and
whenever it is strictly positive the recorded best candidate is built
from the first pair in scan order attaining it — so among several pairs
with the maximal positive score the earliest wins, and a best match is
never replaced by a later pair of equal score.  (The amendment: when
the maximal score is 0 no candidate is recorded at all.) -/
theorem C3_theorem (step : PlannedStep) (timeline : List TimelineItem)
    (θ : ℚ)
    (h : 0 < (match_step_with_timeline step timeline θ).best_score) :
    (∀ q ∈ flaggedPairs timeline,
      semantic_match (planned_action_of step) q.2.1 ≤
        (match_step_with_timeline step timeline θ).best_score) ∧
    ∃ p, (flaggedPairs timeline).find? (fun q =>
        decide (semantic_match (planned_action_of step) q.2.1 =
          (match_step_with_timeline step timeline θ).best_score)) = some p ∧
      (match_step_with_timeline step timeline θ).best_match =
        some (mkCand p.1 p.2.1 (semantic_match (planned_action_of step) p.2.1)) := by
  have hpr := match_step_best step timeline θ
  have hfst := congrArg Prod.fst hpr
  have hsnd := congrArg Prod.snd hpr
  dsimp at hfst hsnd
  constructor
  · intro q hq
    rw [hfst]
    exact foldl_bestStep_ub (planned_action_of step) (flaggedPairs timeline)
      (0, none) q hq
  · rw [hfst] at h ⊢
    rw [hsnd]
    exact foldl_bestStep_first (planned_action_of step)
      (flaggedPairs timeline) (0, none) h

/-- Witness for C3: two timeline items at 5s and 12s whose action
phrases score equally (3/5); the recorded best candidate is the 5s
item. -/
theorem C3_witness :
    semantic_match (planned_action_of stepClick) "click" ≤
      (match_step_with_timeline stepClick [itemEarly, itemLate]
        0.5).best_score ∧
    (match_step_with_timeline stepClick [itemEarly, itemLate]
        0.5).best_match = some (mkCand itemEarly "click" (3/5)) := by
  have hpr := match_step_best stepClick [itemEarly, itemLate] 0.5
  rw [foldT_eval] at hpr
  have hfst := congrArg Prod.fst hpr
  dsimp at hfst
  have hpos : 0 < (match_step_with_timeline stepClick [itemEarly, itemLate]
      (0.5 : ℚ)).best_score := by
    rw [hfst]
    norm_num
  obtain ⟨hub, p, hfind, hbm⟩ :=
    C3_theorem stepClick [itemEarly, itemLate] 0.5 hpos
  constructor
  · exact hub (itemEarly, "click", true)
      (by rw [show flaggedPairs [itemEarly, itemLate] =
            [(itemEarly, "click", true), (itemLate, "click", true)] from rfl]
          exact List.mem_cons_self _ _)
  · rw [hfst, show planned_action_of stepClick = "click" from rfl,
      show flaggedPairs [itemEarly, itemLate] =
        [(itemEarly, "click", true), (itemLate, "click", true)] from rfl]
      at hfind
    rw [List.find?_cons_of_pos] at hfind
    · obtain rfl := Option.some.inj hfind
      rw [show planned_action_of stepClick = "click" from rfl,
        sm_click_click] at hbm
      exact hbm
    · simp only [decide_eq_true_eq]
      exact sm_click_click

/-- C4 counterexample: a timeline item whose only phrase is the UI
element "click" scores 3/5 ≥ 0.5 against planned text "click"; the
per-claim `aboveThreshold` list contains that triple, but the source only
collects above-threshold triples inside the `actions` loop, so
`all_matches` is empty. -/
theorem C4_counterexample :
    (match_step_with_timeline stepClick [itemUIOnly] 0.5).all_matches = [] ∧
    specAboveThreshold stepClick [itemUIOnly] 0.5 =
      [mkCand itemUIOnly "click" (3/5)] := by
  constructor
  · rw [match_step_matches,
      show flaggedPairs [itemUIOnly] = [(itemUIOnly, "click", false)]
        from rfl]
    simp
  · unfold specAboveThreshold
    rw [show flaggedPairs [itemUIOnly] = [(itemUIOnly, "click", false)]
        from rfl,
      show planned_action_of stepClick = "click" from rfl]
    simp only [List.filterMap_cons, List.filterMap_nil, sm_click_click]
    norm_num

/-- C4 (amended): the `all_matches` list contains exactly every
(event, phrase, score) triple with score ≥ threshold drawn from the
action-phrase set only (not from UI-element phrases or text snippets),
in scan order. -/
theorem C4_theorem (step : PlannedStep) (timeline : List TimelineItem)
    (θ : ℚ) :
    (match_step_with_timeline step timeline θ).all_matches =
      (flaggedPairs timeline).filterMap (fun p =>
        if p.2.2 = true ∧ θ ≤ semantic_match (planned_action_of step) p.2.1
        then some (mkCand p.1 p.2.1
          (semantic_match (planned_action_of step) p.2.1))
        else none) :=
  match_step_matches step timeline θ

/-- C7 counterexample: with threshold 2, far outside [0,1], the matcher
returns a normal result (verdict Deviation, best score 3/5) instead of
failing with a ConfigurationError — the source performs no threshold
validation at all. -/
theorem C7_counterexample :
    (match_step_with_timeline stepClick [itemAction] 2).result =
      "deviation" ∧
    (match_step_with_timeline stepClick [itemAction] 2).best_score = 3/5 := by
  have hpr := match_step_best stepClick [itemAction] 2
  rw [foldV_eval] at hpr
  have hfst := congrArg Prod.fst hpr
  dsimp at hfst
  obtain ⟨_, hres⟩ := match_step_fields stepClick [itemAction] 2
  refine ⟨?_, hfst⟩
  rw [hres, hfst, if_neg (by norm_num)]

/-- C7 (amended): the step matcher performs no threshold validation:
for every threshold, inside or outside [0,1], the batch returns
normally with one result per planned step. -/
theorem C7_theorem (steps : List PlannedStep) (timeline : List TimelineItem)
    (θ : ℚ) :
    (match_all_steps steps timeline θ).length = steps.length := by
  simp [match_all_steps]

/-- C8 counterexample: a frame record lacking a timestamp is not
rejected with an InputError; the timestamp silently defaults to 0 and
the record is processed normally. -/
theorem C8_counterexample :
    build_action_timeline [frameNoTimestamp] =
      [TimelineItem.mk 0 "00:00" ["click"] [] [] "" 0] := rfl

/-- C8 (amended): the timeline builder never fails: every missing field
falls back to its `dict.get` default (timestamp 0, formatted time
"00:00", phrase lists empty, description empty, frame number 0, as
recorded in `frameEntry`), and a record is kept exactly when one of its
three phrase lists is non-empty. -/
theorem C8_theorem (analyzed_frames : List FrameRecord) :
    build_action_timeline analyzed_frames =
      analyzed_frames.filterMap (fun f =>
        if !(f.detected_actions.getD []).isEmpty ||
            !(f.ui_elements.getD []).isEmpty ||
            !(f.text_content.getD []).isEmpty
        then some (frameEntry f) else none) := by
  have haux : ∀ (fs : List FrameRecord) (acc : List TimelineItem),
      fs.foldl (fun timeline frame_data =>
        let actions := frame_data.detected_actions.getD []
        let ui_elements := frame_data.ui_elements.getD []
        let text_content := frame_data.text_content.getD []
        if !actions.isEmpty || !ui_elements.isEmpty || !text_content.isEmpty
        then timeline ++ [frameEntry frame_data]
        else timeline) acc =
      acc ++ fs.filterMap (fun f =>
        if !(f.detected_actions.getD []).isEmpty ||
            !(f.ui_elements.getD []).isEmpty ||
            !(f.text_content.getD []).isEmpty
        then some (frameEntry f) else none) := by
    intro fs
    induction fs with
    | nil => intro acc; simp
    | cons f fs ih =>
      intro acc
      rw [List.foldl_cons, List.filterMap_cons]
      by_cases hc : (!(f.detected_actions.getD []).isEmpty ||
          !(f.ui_elements.getD []).isEmpty ||
          !(f.text_content.getD []).isEmpty) = true
      · simp only [hc, if_pos, ih]
        simp [List.append_assoc]
      · simp only [Bool.not_eq_true] at hc
        simp only [hc, Bool.false_eq_true, if_false, ih]
  unfold build_action_timeline
  simpa using haux analyzed_frames []

end VideoAnalysis
